import Mathlib

/-!
Verification development for the `obs_roman` repository core logic.

Shallow embedding of:
  * `python/lsst/obs/base/fitsExposureFormatter.py`
    (`FitsExposureFormatter.readComponent`, `.getImageCompressionSettings`,
     `.validateWriteRecipes`)
  * `python/lsst/obs/base/_read_curated_calibs.py`
    (`check_metadata`, `read_all`)

Modelling conventions:
  * Python dictionaries are association lists `List (String × _)` in insertion
    order; Python dict keys are unique, lookups take the first binding.
  * Python exceptions are the `PyError` sum type; fallible code returns
    `Except PyError _`.
  * Python scalar values appearing in recipe configurations are the `PyValue`
    sum; Python floats are modelled as exact rationals (all float literals in
    the source schemas are decimal-exact, and no claim depends on rounding).
  * Python's builtin `hash` is process-dependent (string hash randomization),
    so it is a parameter `pyHash` of the embedding; `% 2**31` is `Int.emod`,
    matching Python's nonnegative remainder for a positive modulus.
  * Python set rendering inside f-strings is modelled without the per-element
    quotes (`{a, b}` instead of `{'a', 'b'}`); only which names appear in a
    message is load-bearing for the claims, not the quoting.
-/

/-- Python exception classes that the embedded code can raise. -/
inductive PyError where
  | keyError (key : String)
  | runtimeError (msg : String)
  | valueError (msg : String)
  | typeError (msg : String)
deriving DecidableEq, Repr

/-- Python values that occur in compression-recipe configurations and
calibration headers: ints, floats (as exact rationals), strings, booleans and
lists of strings (the only list shape in the recipe schemas). -/
inductive PyValue where
  | int (n : Int)
  | float (q : Rat)
  | str (s : String)
  | bool (b : Bool)
  | strList (l : List String)
deriving DecidableEq, Repr

deriving instance DecidableEq for Except

/-- A Python dict with string keys, as an insertion-ordered association list. -/
abbrev Dict (β : Type) := List (String × β)

abbrev Fields := Dict PyValue
abbrev PlaneCfg := Dict Fields
abbrev RecipeCfg := Dict PlaneCfg
abbrev RecipesCfg := Dict RecipeCfg

/-- Python `d[k]` / `k in d` lookup: first binding wins. -/
def dlookup {β : Type} (k : String) : Dict β → Option β
  | [] => none
  | (k', v) :: rest => if k' = k then some v else dlookup k rest

/-- Replace the value bound to `k` (Python in-place assignment of an existing
dict entry); keys not equal to `k` are untouched, absent keys stay absent. -/
def dictMapVal {β : Type} (d : Dict β) (k : String) (f : β → β) : Dict β :=
  d.map (fun kv => if kv.1 = k then (kv.1, f kv.2) else kv)

/-- Python `d[k] = v`: overwrite the existing binding or append a new one. -/
def dictSet {β : Type} : Dict β → String → β → Dict β
  | [], k, v => [(k, v)]
  | (k', v') :: rest, k, v =>
    if k' = k then (k, v) :: rest else (k', v') :: dictSet rest k v

/-- `sep.join(l)` from Python. -/
def joinWith (sep : String) : List String → String
  | [] => ""
  | [x] => x
  | x :: y :: xs => x ++ (sep ++ joinWith sep (y :: xs))

/-- The string `needle` occurs contiguously inside `hay`. -/
def strContainsP (hay needle : String) : Prop :=
  ∃ a b : String, hay = a ++ (needle ++ b)

/-- Executable substring test (used to evaluate negative containment facts on
concrete strings). -/
def containsSub (hay needle : String) : Bool :=
  (List.range (hay.data.length + 1)).any
    (fun i => needle.data.isPrefixOf (hay.data.drop i))

/-- Python `str.lower()` for one ASCII character (a structural model; the
embedded camera and header names are ASCII). -/
def lowerChar (c : Char) : Char :=
  if c.isUpper then Char.ofNat (c.toNat + 32) else c

/-- Python `s.lower()` (structural, so that concrete instances evaluate). -/
def pyLower (s : String) : String := String.mk (s.data.map lowerChar)

/-- Python truthiness `bool(x)` for the modelled values. -/
def pyTruthy : PyValue → Bool
  | .int n => decide (n ≠ 0)
  | .float q => decide (q ≠ 0)
  | .bool b => b
  | .str s => decide (s ≠ "")
  | .strList l => decide (l ≠ [])

/-- Python `int(x)`: identity on ints, 0/1 on bools, truncation toward zero on
floats, base-10 parse of trimmed strings (a model of Python's numeral
grammar), `TypeError` on lists. -/
def pyIntCoerce : PyValue → Except PyError Int
  | .int n => .ok n
  | .bool b => .ok (if b then 1 else 0)
  | .float q => .ok (Int.tdiv q.num (q.den : Int))
  | .str s =>
    match s.trim.toInt? with
    | some n => .ok n
    | none => .error (.valueError ("invalid literal for int with base 10: " ++ s))
  | .strList _ =>
    .error (.typeError "int argument must be a string or a number, not list")

/-- A model of Python `float(s)` string parsing: optional sign, digits,
optional fractional part (exponents are not modelled; no claim depends on
them). -/
def parseFloat? (s : String) : Option Rat :=
  let t := s.trim
  match t.split (fun c => c = '.') with
  | [a] => (a.toInt?).map (fun n => (n : Rat))
  | [a, b] =>
    match a.toInt?, b.toNat? with
    | some n, some fr =>
      let frac : Rat := (fr : Rat) / ((10 : Rat) ^ b.length)
      some (if a.startsWith "-" then (n : Rat) - frac else (n : Rat) + frac)
    | _, _ => none
  | _ => none

/-- Python `float(x)`. -/
def pyFloatCoerce : PyValue → Except PyError Rat
  | .int n => .ok (n : Rat)
  | .bool b => .ok (if b then 1 else 0)
  | .float q => .ok q
  | .str s =>
    match parseFloat? s with
    | some q => .ok q
    | none => .error (.valueError ("could not convert string to float: " ++ s))
  | .strList _ =>
    .error (.typeError "float argument must be a string or a number, not list")

/-- Python `str(x)` for the modelled values (float and list rendering are a
deterministic model of Python's repr; the exact spelling is not load-bearing
for any claim). -/
def pyStrOfValue : PyValue → String
  | .int n => toString n
  | .float q => toString q
  | .bool b => if b then "True" else "False"
  | .str s => s
  | .strList l => "[" ++ (joinWith ", " l ++ "]")

/-- `type(schema[key])(entry[key])` from `validateWriteRecipes`: coerce a raw
value to the type of the schema default `target`. -/
def pyCoerce (target raw : PyValue) : Except PyError PyValue :=
  match target with
  | .int _ =>
    match pyIntCoerce raw with
    | .ok n => .ok (.int n)
    | .error e => .error e
  | .float _ =>
    match pyFloatCoerce raw with
    | .ok q => .ok (.float q)
    | .error e => .error e
  | .bool _ => .ok (.bool (pyTruthy raw))
  | .str _ => .ok (.str (pyStrOfValue raw))
  | .strList _ =>
    match raw with
    | .strList l => .ok (.strList l)
    | .str s => .ok (.strList (s.data.map (fun c => String.singleton c)))
    | _ => .error (.typeError "TypeError: argument of type is not iterable")

/-! ## `FitsExposureFormatter.validateWriteRecipes` -/

/-- `compressionSchema` from `validateWriteRecipes` (defaults give the
expected types). -/
def compressionSchema : Fields :=
  [("algorithm", .str "NONE"),
   ("rows", .int 1),
   ("columns", .int 0),
   ("quantizeLevel", .float 0)]

/-- `scalingSchema` from `validateWriteRecipes`. -/
def scalingSchema : Fields :=
  [("algorithm", .str "NONE"),
   ("bitpix", .int 0),
   ("maskPlanes", .strList ["NO_DATA"]),
   ("seed", .int 0),
   ("quantizeLevel", .float 4),
   ("quantizePad", .float 5),
   ("fuzz", .bool true),
   ("bscale", .float 1),
   ("bzero", .float 0)]

/-- The three image planes, in the order the source iterates them. -/
def planeNames : List String := ["image", "mask", "variance"]

/-- The two per-plane sub-section names. -/
def sectionNames : List String := ["compression", "scaling"]

/-- `set(entry) - set(allowed)` (as a list of the offending keys, in entry
order; Python's `set` would deduplicate, but dict keys are unique anyway). -/
def unrecognizedOf (keys allowed : List String) : List String :=
  keys.filter (fun k => decide (k ∉ allowed))

/-- The message raised by `checkUnrecognized`. -/
def unrecognizedMsg (description : String) (u : List String) : String :=
  "Unrecognized entries when parsing image compression recipe " ++
    (description ++ (": " ++ ("\x7b" ++ (joinWith ", " u ++ "\x7d"))))

/-- `checkUnrecognized(entry, allowed, description)`: raise `RuntimeError` if
`entry` has keys outside `allowed`. -/
def checkUnrecognized (keys allowed : List String) (description : String) :
    Except PyError Unit :=
  if unrecognizedOf keys allowed = [] then .ok ()
  else .error (.runtimeError (unrecognizedMsg description (unrecognizedOf keys allowed)))

/-- One field of `for key in schema: np[settings][key] = ...`: raw value
coerced when present, default otherwise. -/
def coerceField (d : PyValue) (entry : Fields) (k : String) : Except PyError PyValue :=
  match dlookup k entry with
  | some raw => pyCoerce d raw
  | none => .ok d

/-- The `for key in schema` loop body of `validateWriteRecipes`, building one
normalized sub-section from a present raw sub-section. -/
def buildFields : Fields → Fields → Except PyError Fields
  | [], _ => .ok []
  | (k, d) :: rest, entry =>
    match coerceField d entry k with
    | .error e => .error e
    | .ok v =>
      match buildFields rest entry with
      | .error e => .error e
      | .ok vs => .ok ((k, v) :: vs)

/-- One `(settings, schema)` iteration of `validateWriteRecipes`: an absent
sub-section is filled entirely with the schema defaults, a present one is
checked for unknown keys and coerced field by field. -/
def buildSection (name plane : String) (rawPlane : PlaneCfg) (sname : String)
    (schema : Fields) : Except PyError Fields :=
  match dlookup sname rawPlane with
  | none => .ok schema
  | some entry =>
    match checkUnrecognized (entry.map Prod.fst) (schema.map Prod.fst)
        (name ++ ("->" ++ (plane ++ ("->" ++ sname)))) with
    | .error e => .error e
    | .ok _ => buildFields schema entry

/-- One `for plane in ("image", "mask", "variance")` iteration: indexing
`recipes[name][plane]` raises `KeyError` when the plane is absent (the
source has no default-filling for a missing plane). -/
def buildPlane (name : String) (rawRecipe : RecipeCfg) (plane : String) :
    Except PyError PlaneCfg :=
  match dlookup plane rawRecipe with
  | none => .error (.keyError plane)
  | some rawPlane =>
    match checkUnrecognized (rawPlane.map Prod.fst) sectionNames
        (name ++ ("->" ++ plane)) with
    | .error e => .error e
    | .ok _ =>
      match buildSection name plane rawPlane "compression" compressionSchema with
      | .error e => .error e
      | .ok c =>
        match buildSection name plane rawPlane "scaling" scalingSchema with
        | .error e => .error e
        | .ok s => .ok [("compression", c), ("scaling", s)]

/-- The per-recipe body of `validateWriteRecipes`. -/
def buildRecipe (name : String) (rawRecipe : RecipeCfg) : Except PyError RecipeCfg :=
  match checkUnrecognized (rawRecipe.map Prod.fst) planeNames name with
  | .error e => .error e
  | .ok _ =>
    match buildPlane name rawRecipe "image" with
    | .error e => .error e
    | .ok i =>
      match buildPlane name rawRecipe "mask" with
      | .error e => .error e
      | .ok m =>
        match buildPlane name rawRecipe "variance" with
        | .error e => .error e
        | .ok v => .ok [("image", i), ("mask", m), ("variance", v)]

/-- The `for name in recipes` loop of `validateWriteRecipes`. -/
def validateList : RecipesCfg → Except PyError RecipesCfg
  | [] => .ok []
  | (name, r) :: rest =>
    match buildRecipe name r with
    | .error e => .error e
    | .ok vr =>
      match validateList rest with
      | .error e => .error e
      | .ok vrest => .ok ((name, vr) :: vrest)

/-- `FitsExposureFormatter.validateWriteRecipes`: `None` and `{}` (falsy
inputs) are returned unchanged; otherwise every recipe is validated and
normalized. -/
def validateWriteRecipes (recipes : Option RecipesCfg) :
    Except PyError (Option RecipesCfg) :=
  match recipes with
  | none => .ok none
  | some [] => .ok (some [])
  | some (r :: rs) =>
    match validateList (r :: rs) with
    | .error e => .error e
    | .ok v => .ok (some v)

/-! ## `FitsExposureFormatter.readComponent` -/

/-- `componentMap` from `readComponent`: component name → (reader method name,
whether the method accepts slicing parameters). -/
def componentMap : Dict (String × Bool) :=
  [("wcs", ("readWcs", false)),
   ("coaddInputs", ("readCoaddInputs", false)),
   ("psf", ("readPsf", false)),
   ("image", ("readImage", true)),
   ("mask", ("readMask", true)),
   ("variance", ("readVariance", true)),
   ("photoCalib", ("readPhotoCalib", false)),
   ("bbox", ("readBBox", true)),
   ("xy0", ("readXY0", true)),
   ("metadata", ("readMetadata", false)),
   ("filter", ("readFilter", false)),
   ("polygon", ("readValidPolygon", false)),
   ("apCorrMap", ("readApCorrMap", false)),
   ("visitInfo", ("readVisitInfo", false)),
   ("transmissionCurve", ("readTransmissionCurve", false)),
   ("detector", ("readDetector", false)),
   ("extras", ("readExtraComponents", false)),
   ("exposureInfo", ("readExposureInfo", false))]

/-- The dispatch `readComponent` performs on success: which
`ExposureFitsReader` method is invoked and with which keyword arguments
(the reader itself and `storageClass.validateParameters` are external
collaborators; all 18 mapped methods exist on the reader). -/
structure Dispatch where
  method : String
  args : Fields
deriving DecidableEq, Repr

/-- `FitsExposureFormatter.readComponent`.  The source does
`method, hasParams = componentMap.get(component, None)`: for an unknown
component the `.get` returns `None` and the tuple unpacking raises
`TypeError` before the `raise KeyError(...)` line is ever reached, so that
branch is dead code (kept here for fidelity: an unpacked method name is a
nonempty string, hence truthy). -/
def readComponent (fdParams : Option Fields) (parameters : Option Fields)
    (component : String) : Except PyError Dispatch :=
  match dlookup component componentMap with
  | none => .error (.typeError "cannot unpack non-iterable NoneType object")
  | some (method, hasParams) =>
    if method ≠ "" then
      let ps : Fields :=
        match parameters with
        | some p => p
        | none =>
          match fdParams with
          | some p => p
          | none => []
      if hasParams && !ps.isEmpty then .ok ⟨method, ps⟩ else .ok ⟨method, []⟩
    else .error (.keyError ("Unknown component requested: " ++ component))

/-! ## `FitsExposureFormatter.getImageCompressionSettings` -/

/-- `hash(tuple(self.dataId.items())) % 2**31`: Python's builtin `hash` is a
parameter (string hashing is process-randomized), the reduction is the
nonnegative remainder. -/
def derivedSeed (pyHash : Fields → Int) (dataId : Fields) : Int :=
  Int.emod (pyHash dataId) (2 ^ 31)

/-- Python `scaling["seed"] == 0` (Python `==` identifies `0`, `0.0` and
`False`). -/
def pyEqZero : PyValue → Bool
  | .int n => decide (n = 0)
  | .float q => decide (q = 0)
  | .bool b => !b
  | _ => false

/-- One `for plane in ("image", "mask", "variance")` iteration of the seed
substitution loop in `getImageCompressionSettings`. -/
def seedStep (seed : Int) (recipe : RecipeCfg) (plane : String) : RecipeCfg :=
  match dlookup plane recipe with
  | none => recipe
  | some pl =>
    match dlookup "scaling" pl with
    | none => recipe
    | some sc =>
      match dlookup "seed" sc with
      | none => recipe
      | some v =>
        if pyEqZero v then
          dictMapVal recipe plane
            (fun pl2 => dictMapVal pl2 "scaling"
              (fun sc2 => dictMapVal sc2 "seed" (fun _ => PyValue.int seed)))
        else recipe

/-- The seed substitution loop over the three planes. -/
def applySeed (seed : Int) (recipe : RecipeCfg) : RecipeCfg :=
  planeNames.foldl (seedStep seed) recipe

/-- `FitsExposureFormatter.getImageCompressionSettings(recipeName)`:
resolve the requested (or default) recipe and substitute the derived seed for
every plane whose scaling seed is the sentinel 0.  `recipeName` is the value
of `self.writeParameters.get("recipe")`; `none` and `some ""` are both falsy
in the source's `if not recipeName`. -/
def getImageCompressionSettings (pyHash : Fields → Int) (dataId : Fields)
    (writeRecipes : RecipesCfg) (recipeName : Option String) :
    Except PyError RecipeCfg :=
  if recipeName = none ∨ recipeName = some "" then
    match dlookup "default" writeRecipes with
    | none => .ok []
    | some recipe => .ok (applySeed (derivedSeed pyHash dataId) recipe)
  else
    let nm := recipeName.getD ""
    match dlookup nm writeRecipes with
    | none =>
      .error (.runtimeError ("Unrecognized recipe option given for compression: " ++ nm))
    | some recipe => .ok (applySeed (derivedSeed pyHash dataId) recipe)

/-- The image plane's scaling seed of a (resolved) recipe. -/
def imageScalingSeed (r : RecipeCfg) : Option PyValue :=
  match dlookup "image" r with
  | none => none
  | some pl =>
    match dlookup "scaling" pl with
    | none => none
    | some sc => dlookup "seed" sc

/-! ## `_read_curated_calibs.check_metadata` -/

/-- The three header entries `check_metadata` reads from the decoded object's
metadata: `INSTRUME`, `DETECTOR`, `OBSTYPE`.  `INSTRUME` and `OBSTYPE` are
strings (the source calls `.lower()` on them); `DETECTOR` passes through
`int(...)`, so it is kept as a raw value. -/
structure CalibHeader where
  INSTRUME : String
  DETECTOR : PyValue
  OBSTYPE : String
deriving DecidableEq, Repr

/-- The `Path metadata: {instrument} {chip_id} {data_name}` fragment of the
mismatch message (raw, un-lowercased values, as in the source f-string). -/
def pathTripleStr (instrument : String) (chip_id : Int) (data_name : String) : String :=
  instrument ++ (" " ++ (toString chip_id ++ (" " ++ data_name)))

/-- The `File metadata: {finst} {fchip_id} {fdata_name}` fragment. -/
def fileTripleStr (md : CalibHeader) : String :=
  md.INSTRUME ++ (" " ++ (pyStrOfValue md.DETECTOR ++ (" " ++ md.OBSTYPE)))

/-- `_read_curated_calibs.check_metadata`: compare the lower-cased
header-derived triple against the path-derived triple and raise `ValueError`
naming both triples and the file path on mismatch.  (The decoded object and
`valid_start` parameters of the source take no part in the comparison and are
omitted.) -/
def check_metadata (md : CalibHeader) (instrument : String) (chip_id : Int)
    (data_name : String) (filepath : String) : Except PyError Unit :=
  match pyIntCoerce md.DETECTOR with
  | .error e => .error e
  | .ok fchip =>
    if (pyLower md.INSTRUME, fchip, pyLower md.OBSTYPE) =
        (pyLower instrument, chip_id, pyLower data_name) then .ok ()
    else
      .error (.valueError
        ("Path and file metadata do not agree:\nPath metadata: " ++
          (pathTripleStr instrument chip_id data_name ++
            ("\nFile metadata: " ++
              (fileTripleStr md ++
                ("\nFile read from : " ++ (filepath ++ "\n")))))))

/-! ## `_read_curated_calibs.read_all` -/

/-- One sensor of the camera description: a name and a numeric id. -/
structure Detector where
  name : String
  id : Int
deriving DecidableEq, Repr

/-- The camera description consumed by `read_all`: an ordered collection of
detectors and a human-readable camera name. -/
structure Camera where
  detectors : List Detector
  name : String
deriving DecidableEq, Repr

/-- `name_map = {det.getName().lower(): det.getName() for det in camera}`. -/
def nameMap (camera : Camera) : Dict String :=
  camera.detectors.map (fun det => (pyLower det.name, det.name))

/-- `camera[name].getId()` for a canonical detector name (the name always
comes from `nameMap`, so the detector exists; 0 is an unreachable default). -/
def chipId (camera : Camera) (canonical : String) : Int :=
  match camera.detectors.find? (fun det => det.name = canonical) with
  | some det => det.id
  | none => 0

/-- The id `read_all` passes to `read_one_chip` for directory `d`. -/
def dirChipId (camera : Camera) (d : String) : Int :=
  chipId camera ((dlookup d (nameMap camera)).getD "")

/-- The unknown-detector message of `read_all`: up to 10 known names, with
"examples" framing if the camera has more than 10 detectors, "knows"
otherwise. -/
def unknownDetectorMsg (chip_name : String) (camera : Camera) : String :=
  let detectors := camera.detectors.map Detector.name
  let shown := if detectors.length > 10 then detectors.take 10 else detectors
  let note := if detectors.length > 10 then "examples" else "knows"
  "Detector " ++ (chip_name ++ (" not known to supplied camera " ++
    (camera.name ++ (" (" ++ (note ++ (": " ++ (joinWith "," shown ++ ")")))))))

/-- `calib_types.add(calib_type)`: insertion-ordered set insertion. -/
def addSet (l : List String) (s : String) : List String :=
  if s ∈ l then l else l ++ [s]

/-- The `Error mixing calib types: {calib_types}` message. -/
def mixedTypesMsg (types : List String) : String :=
  "Error mixing calib types: " ++ ("\x7b" ++ (joinWith ", " types ++ "\x7d"))

/-- The `for d in dirs` loop of `read_all`.  `ro` abstracts
`read_one_chip(root, chip_name, chip_id)` (file discovery, timestamp parsing
and decoding happen there, behind blocking I/O); the state carries
`data_by_chip`, the `calib_types` set and the current `calib_type` loop
variable. -/
def readLoop {α : Type} (ro : String → Int → Except PyError (List (Int × α) × String))
    (camera : Camera) :
    List String → Dict (List (Int × α)) → List String → Option String →
    Except PyError (Dict (List (Int × α)) × List String × Option String)
  | [], data, types, last => .ok (data, types, last)
  | d :: rest, data, types, _last =>
    match dlookup d (nameMap camera) with
    | none => .error (.runtimeError (unknownDetectorMsg d camera))
    | some canonical =>
      match ro d (chipId camera canonical) with
      | .error e => .error e
      | .ok (dd, ctype) =>
        let data' := dictSet data d dd
        let types' := addSet types ctype
        if types'.length ≠ 1 then .error (.valueError (mixedTypesMsg types'))
        else readLoop ro camera rest data' types' (some ctype)

/-- `_read_curated_calibs.read_all`: `dirs` models `os.listdir(root)` already
filtered to immediate subdirectories (their names are the `chip_name`s; for a
bare listing entry `os.path.basename` is the identity).  Per-sensor records
are keyed by an opaque timestamp (`Int` stands for the parsed `datetime`). -/
def read_all {α : Type} (ro : String → Int → Except PyError (List (Int × α) × String))
    (camera : Camera) (root : String) (dirs : List String) :
    Except PyError (Dict (List (Int × α)) × String) :=
  if dirs = [] then .error (.runtimeError ("No data found on path " ++ root))
  else
    match readLoop ro camera dirs [] [] none with
    | .error e => .error e
    | .ok (data, _, last) =>
      if data.all (fun kv => kv.2.isEmpty) then
        .error (.runtimeError "No data to ingest")
      else .ok (data, last.getD "")

/-! ## Normalization checker (specification-side structure predicate)

`recipesChk R V` states that `V` is the full normalization of the raw recipe
mapping `R`: same recipe names in order, every recipe carrying exactly the
three planes, every plane exactly the two sub-sections, every sub-section
exactly the schema fields — absent sub-sections filled with the schema
defaults, present raw values coerced to the schema field's type. -/

/-- Provenance of one normalized field value. -/
def fieldOk (entry : Fields) (k : String) (d v : PyValue) : Bool :=
  match dlookup k entry with
  | none => decide (v = d)
  | some raw => decide (pyCoerce d raw = .ok v)

/-- One sub-section of a normalized plane against its raw plane. -/
def sectionChk (rawPlane : PlaneCfg) (sname : String) (schema out : Fields) : Bool :=
  match dlookup sname rawPlane with
  | none => decide (out = schema)
  | some entry =>
    decide (unrecognizedOf (entry.map Prod.fst) (schema.map Prod.fst) = []) &&
    decide (out.length = schema.length) &&
    (schema.zip out).all
      (fun p => decide (p.2.1 = p.1.1) && fieldOk entry p.1.1 p.1.2 p.2.2)

/-- One normalized plane against its raw recipe. -/
def planeChk (rawRecipe : RecipeCfg) (plane : String) (out : PlaneCfg) : Bool :=
  match dlookup plane rawRecipe with
  | none => false
  | some rawPlane =>
    decide (unrecognizedOf (rawPlane.map Prod.fst) sectionNames = []) &&
    match out with
    | [(n1, c), (n2, s)] =>
      decide (n1 = "compression") && decide (n2 = "scaling") &&
      sectionChk rawPlane "compression" compressionSchema c &&
      sectionChk rawPlane "scaling" scalingSchema s
    | _ => false

/-- One normalized recipe against its raw recipe. -/
def recipeChk (raw out : RecipeCfg) : Bool :=
  decide (unrecognizedOf (raw.map Prod.fst) planeNames = []) &&
  match out with
  | [(p1, i), (p2, m), (p3, v)] =>
    decide (p1 = "image") && decide (p2 = "mask") && decide (p3 = "variance") &&
    planeChk raw "image" i && planeChk raw "mask" m && planeChk raw "variance" v
  | _ => false

/-- The whole normalized mapping against the raw mapping. -/
def recipesChk (R V : RecipesCfg) : Bool :=
  decide (V.length = R.length) &&
  (R.zip V).all (fun p => decide (p.2.1 = p.1.1) && recipeChk p.1.2 p.2.2)

/-! ## Concrete inputs used by witnesses -/

/-- A fully-defaulted normalized plane. -/
def defaultPlane : PlaneCfg :=
  [("compression", compressionSchema), ("scaling", scalingSchema)]

/-- Witness raw mapping: one recipe, all three planes present and empty. -/
def recipesW : RecipesCfg :=
  [("r", [("image", []), ("mask", []), ("variance", [])])]

/-- The normalization of `recipesW`. -/
def recipesWout : RecipesCfg :=
  [("r", [("image", defaultPlane), ("mask", defaultPlane), ("variance", defaultPlane)])]

/-- Witness recipe mapping for seed substitution: the spec's
`{"default": {"image": {"scaling": {"seed": 0}}}}`. -/
def recipesSeed : RecipesCfg :=
  [("default", [("image", [("scaling", [("seed", PyValue.int 0)])])])]

/-- A concrete stand-in for Python's `hash` on dataId item tuples. -/
def hashLen : Fields → Int := fun l => (l.length : Int)

/-- The output of a successful `buildFields` run (or a schema itself) is
coercion-stable field by field. -/
def goodFields (schema out : Fields) : Prop :=
  out.length = schema.length ∧
    ∀ p ∈ schema.zip out, p.2.1 = p.1.1 ∧ pyCoerce p.1.2 p.2.2 = .ok p.2.2

/-- Witness camera with one sensor. -/
def cam1 : Camera := ⟨[⟨"ccd00", 0⟩], "TestCam"⟩

/-- Witness camera with two sensors. -/
def cam2 : Camera := ⟨[⟨"ccd00", 0⟩, ⟨"ccd01", 1⟩], "TestCam"⟩

/-- Witness chip reader: every sensor yields no records, category defects. -/
def roEmpty : String → Int → Except PyError (List (Int × Nat) × String) :=
  fun _ _ => .ok ([], "defects")

/-- Witness chip reader yielding two distinct calibration categories. -/
def roMixed : String → Int → Except PyError (List (Int × Nat) × String) :=
  fun n _ => if n = "ccd00" then .ok ([], "defects") else .ok ([], "linearizer")

/-- A hash assignment under which the derived seed is 0 (Python's randomized
`hash` admits identities whose tuple hash is divisible by `2 ** 31`; the code
has no guard against that). -/
def hashZero : Fields → Int := fun _ => 0

/-! ## String containment helpers -/

theorem strContainsP_here (a n b : String) : strContainsP (a ++ (n ++ b)) n :=
  ⟨a, b, rfl⟩

theorem strContainsP_self_left (n b : String) : strContainsP (n ++ b) n :=
  ⟨"", b, (String.empty_append _).symm⟩

theorem strContainsP_self (n : String) : strContainsP n n :=
  ⟨"", "", by rw [String.append_empty, String.empty_append]⟩

theorem strContainsP_cons (p : String) {h n : String} (hc : strContainsP h n) :
    strContainsP (p ++ h) n := by
  obtain ⟨a, b, e⟩ := hc
  exact ⟨p ++ a, b, by rw [e, String.append_assoc]⟩

theorem strContainsP_extend_right {h n : String} (t : String)
    (hc : strContainsP h n) : strContainsP (h ++ t) n := by
  obtain ⟨a, b, e⟩ := hc
  exact ⟨a, b ++ t, by rw [e, String.append_assoc, String.append_assoc]⟩

theorem joinWith_contains {k : String} (sep : String) {l : List String}
    (hk : k ∈ l) : strContainsP (joinWith sep l) k := by
  induction l with
  | nil => cases hk
  | cons x xs ih =>
    cases xs with
    | nil =>
      rcases List.mem_singleton.mp hk with rfl
      exact strContainsP_self k
    | cons y ys =>
      rcases List.mem_cons.mp hk with rfl | hmem
      · exact strContainsP_self_left _ _
      · exact strContainsP_cons x (strContainsP_cons sep (ih hmem))

/-! ## Lemmas about `validateWriteRecipes` -/

theorem checkUnrecognized_ok_iff (keys allowed : List String) (desc : String) :
    checkUnrecognized keys allowed desc = .ok () ↔ unrecognizedOf keys allowed = [] := by
  unfold checkUnrecognized
  split <;> simp_all

theorem checkUnrecognized_err {keys allowed : List String} (desc : String)
    (hu : unrecognizedOf keys allowed ≠ []) :
    checkUnrecognized keys allowed desc =
      .error (.runtimeError (unrecognizedMsg desc (unrecognizedOf keys allowed))) := by
  unfold checkUnrecognized
  simp [hu]

theorem pyCoerce_self (d : PyValue) : pyCoerce d d = .ok d := by
  cases d <;> simp [pyCoerce, pyIntCoerce, pyFloatCoerce, pyTruthy, pyStrOfValue]

theorem pyCoerce_stable {t raw v : PyValue} (h : pyCoerce t raw = .ok v) :
    pyCoerce t v = .ok v := by
  cases t with
  | int n =>
    simp only [pyCoerce] at h ⊢
    cases hpi : pyIntCoerce raw with
    | ok m => rw [hpi] at h; injection h with h; subst h; simp [pyIntCoerce]
    | error e => rw [hpi] at h; cases h
  | float q =>
    simp only [pyCoerce] at h ⊢
    cases hpf : pyFloatCoerce raw with
    | ok m => rw [hpf] at h; injection h with h; subst h; simp [pyFloatCoerce]
    | error e => rw [hpf] at h; cases h
  | bool b =>
    simp only [pyCoerce] at h
    injection h with h; subst h; simp [pyCoerce, pyTruthy]
  | str s =>
    simp only [pyCoerce] at h
    injection h with h; subst h; simp [pyCoerce, pyStrOfValue]
  | strList l =>
    cases raw with
    | strList l2 => simp only [pyCoerce] at h; injection h with h; subst h; rfl
    | str s => simp only [pyCoerce] at h; injection h with h; subst h; rfl
    | int n => simp [pyCoerce] at h
    | float q => simp [pyCoerce] at h
    | bool b => simp [pyCoerce] at h

theorem fieldOk_of_coerceField {d v : PyValue} {entry : Fields} {k : String}
    (hc : coerceField d entry k = .ok v) : fieldOk entry k d v = true := by
  unfold coerceField at hc
  split at hc
  · rename_i raw heq
    simp [fieldOk, heq, hc]
  · rename_i heq
    injection hc with h
    simp [fieldOk, heq, ← h]

theorem pyCoerce_of_fieldOk {d v : PyValue} {entry : Fields} {k : String}
    (h : fieldOk entry k d v = true) : pyCoerce d v = .ok v := by
  unfold fieldOk at h
  cases hdl : dlookup k entry with
  | none =>
    rw [hdl] at h
    have : v = d := by simpa using h
    subst this
    exact pyCoerce_self v
  | some raw =>
    rw [hdl] at h
    exact pyCoerce_stable (by simpa using h)

theorem buildFields_ok {schema entry out : Fields}
    (h : buildFields schema entry = .ok out) :
    out.length = schema.length ∧
      ∀ p ∈ schema.zip out, p.2.1 = p.1.1 ∧ fieldOk entry p.1.1 p.1.2 p.2.2 = true := by
  induction schema generalizing out with
  | nil =>
    simp [buildFields] at h
    subst h
    simp
  | cons kd rest ih =>
    obtain ⟨k, d⟩ := kd
    simp only [buildFields] at h
    cases hc : coerceField d entry k with
    | error e => rw [hc] at h; cases h
    | ok v =>
      rw [hc] at h
      cases hr : buildFields rest entry with
      | error e => rw [hr] at h; cases h
      | ok vs =>
        rw [hr] at h
        injection h with h
        subst h
        obtain ⟨ihl, ihz⟩ := ih hr
        refine ⟨by simp [ihl], ?_⟩
        intro p hp
        rcases List.mem_cons.mp (by simpa [List.zip] using hp) with rfl | hmem
        · exact ⟨rfl, fieldOk_of_coerceField hc⟩
        · exact ihz p hmem

/-- `buildFields` depends on the raw sub-section only through lookups of the
schema keys. -/
theorem buildFields_congr {schema e₁ e₂ : Fields}
    (h : ∀ k ∈ schema.map Prod.fst, dlookup k e₁ = dlookup k e₂) :
    buildFields schema e₁ = buildFields schema e₂ := by
  induction schema with
  | nil => simp [buildFields]
  | cons kd rest ih =>
    obtain ⟨k, d⟩ := kd
    have hk : dlookup k e₁ = dlookup k e₂ := h k (by simp)
    have hrest : buildFields rest e₁ = buildFields rest e₂ :=
      ih (fun k' hk' => h k' (by simp [hk']))
    simp only [buildFields, coerceField, hk, hrest]

theorem goodFields_of_buildFields {schema entry out : Fields}
    (h : buildFields schema entry = .ok out) : goodFields schema out := by
  obtain ⟨hl, hz⟩ := buildFields_ok h
  exact ⟨hl, fun p hp => ⟨(hz p hp).1, pyCoerce_of_fieldOk (hz p hp).2⟩⟩

theorem mem_zip_self {β : Type} {l : List β} {p : β × β} (hp : p ∈ l.zip l) :
    p.1 = p.2 := by
  induction l with
  | nil => cases hp
  | cons x xs ih =>
    rw [List.zip_cons_cons] at hp
    rcases List.mem_cons.mp hp with rfl | hmem
    · rfl
    · exact ih hmem

theorem goodFields_self (schema : Fields) : goodFields schema schema := by
  refine ⟨rfl, fun p hp => ?_⟩
  have := mem_zip_self hp
  rw [← this]
  exact ⟨rfl, pyCoerce_self _⟩

theorem map_fst_of_zip {schema out : Fields} (hlen : out.length = schema.length)
    (hzip : ∀ p ∈ schema.zip out, p.2.1 = p.1.1) :
    out.map Prod.fst = schema.map Prod.fst := by
  induction schema generalizing out with
  | nil =>
    cases out with
    | nil => rfl
    | cons a l => simp at hlen
  | cons kd rest ih =>
    cases out with
    | nil => simp at hlen
    | cons kv vs =>
      have hhead : kv.1 = kd.1 :=
        hzip (kd, kv) (by rw [List.zip_cons_cons]; exact List.mem_cons_self _ _)
      have htail := ih (by simpa using hlen)
        (fun p hp => hzip p (by rw [List.zip_cons_cons]; exact List.mem_cons_of_mem _ hp))
      simp [hhead, htail]

theorem buildFields_self : ∀ {schema out : Fields},
    (schema.map Prod.fst).Nodup → goodFields schema out →
    buildFields schema out = .ok out := by
  intro schema
  induction schema with
  | nil =>
    intro out hnd hg
    cases out with
    | nil => rfl
    | cons a l => exact absurd hg.1 (by simp)
  | cons kd rest ih =>
    intro out hnd hg
    obtain ⟨hlen, hzip⟩ := hg
    obtain ⟨k, d⟩ := kd
    cases out with
    | nil => simp at hlen
    | cons kv vs =>
      obtain ⟨k1, v⟩ := kv
      have hhead := hzip ((k, d), (k1, v))
        (by rw [List.zip_cons_cons]; exact List.mem_cons_self _ _)
      obtain ⟨hk1, hcv⟩ := hhead
      simp only at hk1 hcv
      subst hk1
      have hknot : k1 ∉ rest.map Prod.fst := by
        simp only [List.map_cons, List.nodup_cons] at hnd
        exact hnd.1
      have hcongr : buildFields rest ((k1, v) :: vs) = buildFields rest vs := by
        apply buildFields_congr
        intro k' hk'
        have hne : k1 ≠ k' := fun he => hknot (he ▸ hk')
        simp [dlookup, hne]
      have hrec : buildFields rest vs = .ok vs := by
        apply ih
        · simp only [List.map_cons, List.nodup_cons] at hnd
          exact hnd.2
        · exact ⟨by simpa using hlen,
            fun p hp => hzip p
              (by rw [List.zip_cons_cons]; exact List.mem_cons_of_mem _ hp)⟩
      simp [buildFields, coerceField, dlookup, hcv, hcongr, hrec]

theorem unrecognizedOf_eq_nil {keys allowed : List String} :
    unrecognizedOf keys allowed = [] ↔ ∀ k ∈ keys, k ∈ allowed := by
  simp [unrecognizedOf, List.filter_eq_nil_iff]

theorem sectionChk_of_buildSection {name plane sname : String} {rawPlane : PlaneCfg}
    {schema out : Fields}
    (h : buildSection name plane rawPlane sname schema = .ok out) :
    sectionChk rawPlane sname schema out = true := by
  unfold buildSection at h
  split at h
  · rename_i hdl
    injection h with h
    simp [sectionChk, hdl, ← h]
  · rename_i entry hdl
    split at h
    · exact Except.noConfusion h
    · rename_i u hcu
      cases u
      have hck := (checkUnrecognized_ok_iff _ _ _).mp hcu
      obtain ⟨hlen, hzip⟩ := buildFields_ok h
      unfold sectionChk
      simp only [hdl]
      simp [hck, hlen, Bool.and_eq_true, List.all_eq_true, decide_eq_true_eq]
      intro k d a b hmem
      exact ⟨(hzip ((k, d), (a, b)) hmem).1, (hzip ((k, d), (a, b)) hmem).2⟩

theorem goodFields_of_buildSection {name plane sname : String} {rawPlane : PlaneCfg}
    {schema out : Fields}
    (h : buildSection name plane rawPlane sname schema = .ok out) :
    goodFields schema out := by
  unfold buildSection at h
  split at h
  · injection h with h
    subst h
    exact goodFields_self _
  · split at h
    · exact Except.noConfusion h
    · exact goodFields_of_buildFields h

theorem buildSection_self {name plane sname : String} {rawPlane' : PlaneCfg}
    {schema out : Fields} (hnd : (schema.map Prod.fst).Nodup)
    (hdl : dlookup sname rawPlane' = some out) (hg : goodFields schema out) :
    buildSection name plane rawPlane' sname schema = .ok out := by
  unfold buildSection
  have hmap : out.map Prod.fst = schema.map Prod.fst :=
    map_fst_of_zip hg.1 (fun p hp => (hg.2 p hp).1)
  have hcu : checkUnrecognized (out.map Prod.fst) (schema.map Prod.fst)
      (name ++ ("->" ++ (plane ++ ("->" ++ sname)))) = .ok () := by
    apply (checkUnrecognized_ok_iff _ _ _).mpr
    rw [hmap]
    exact unrecognizedOf_eq_nil.mpr (fun k hk => hk)
  simp only [hdl, hcu]
  exact buildFields_self hnd hg

theorem buildPlane_ok_parts {name plane : String} {raw : RecipeCfg} {out : PlaneCfg}
    (h : buildPlane name raw plane = .ok out) :
    ∃ rawPlane c s, dlookup plane raw = some rawPlane ∧
      unrecognizedOf (rawPlane.map Prod.fst) sectionNames = [] ∧
      buildSection name plane rawPlane "compression" compressionSchema = .ok c ∧
      buildSection name plane rawPlane "scaling" scalingSchema = .ok s ∧
      out = [("compression", c), ("scaling", s)] := by
  unfold buildPlane at h
  split at h
  · exact Except.noConfusion h
  · rename_i rawPlane hdl
    split at h
    · exact Except.noConfusion h
    · rename_i u hcu
      split at h
      · exact Except.noConfusion h
      · rename_i c hc
        split at h
        · exact Except.noConfusion h
        · rename_i s hs
          injection h with h
          cases u
          exact ⟨rawPlane, c, s, hdl, (checkUnrecognized_ok_iff _ _ _).mp hcu,
            hc, hs, h.symm⟩

theorem planeChk_of_buildPlane {name plane : String} {raw : RecipeCfg} {out : PlaneCfg}
    (h : buildPlane name raw plane = .ok out) : planeChk raw plane out = true := by
  obtain ⟨rawPlane, c, s, hdl, hu, hc, hs, rfl⟩ := buildPlane_ok_parts h
  unfold planeChk
  simp [hdl, hu, sectionChk_of_buildSection hc, sectionChk_of_buildSection hs]

theorem buildPlane_self {name plane : String} {raw raw' : RecipeCfg} {out : PlaneCfg}
    (h : buildPlane name raw plane = .ok out)
    (hdl' : dlookup plane raw' = some out) :
    buildPlane name raw' plane = .ok out := by
  obtain ⟨rawPlane, c, s, hdl, hu, hc, hs, rfl⟩ := buildPlane_ok_parts h
  unfold buildPlane
  have hcu : checkUnrecognized
      (([("compression", c), ("scaling", s)] : PlaneCfg).map Prod.fst)
      sectionNames (name ++ ("->" ++ plane)) = .ok () := by
    have hmap2 : (([("compression", c), ("scaling", s)] : PlaneCfg).map Prod.fst)
        = ["compression", "scaling"] := rfl
    apply (checkUnrecognized_ok_iff _ _ _).mpr
    rw [hmap2]
    decide
  have h1 : buildSection name plane [("compression", c), ("scaling", s)]
      "compression" compressionSchema = .ok c :=
    buildSection_self (by decide) (by simp [dlookup]) (goodFields_of_buildSection hc)
  have h2 : buildSection name plane [("compression", c), ("scaling", s)]
      "scaling" scalingSchema = .ok s :=
    buildSection_self (by decide) (by simp [dlookup]) (goodFields_of_buildSection hs)
  simp only [hdl', hcu, h1, h2]

theorem buildRecipe_ok_parts {name : String} {raw out : RecipeCfg}
    (h : buildRecipe name raw = .ok out) :
    ∃ i m v, unrecognizedOf (raw.map Prod.fst) planeNames = [] ∧
      buildPlane name raw "image" = .ok i ∧
      buildPlane name raw "mask" = .ok m ∧
      buildPlane name raw "variance" = .ok v ∧
      out = [("image", i), ("mask", m), ("variance", v)] := by
  unfold buildRecipe at h
  split at h
  · exact Except.noConfusion h
  · rename_i u hcu
    split at h
    · exact Except.noConfusion h
    · rename_i i hi
      split at h
      · exact Except.noConfusion h
      · rename_i m hm
        split at h
        · exact Except.noConfusion h
        · rename_i v hv
          injection h with h
          cases u
          exact ⟨i, m, v, (checkUnrecognized_ok_iff _ _ _).mp hcu, hi, hm, hv, h.symm⟩

theorem recipeChk_of_buildRecipe {name : String} {raw out : RecipeCfg}
    (h : buildRecipe name raw = .ok out) : recipeChk raw out = true := by
  obtain ⟨i, m, v, hu, hi, hm, hv, rfl⟩ := buildRecipe_ok_parts h
  unfold recipeChk
  simp [hu, planeChk_of_buildPlane hi, planeChk_of_buildPlane hm,
    planeChk_of_buildPlane hv]

theorem buildRecipe_self {name : String} {raw out : RecipeCfg}
    (h : buildRecipe name raw = .ok out) : buildRecipe name out = .ok out := by
  obtain ⟨i, m, v, hu, hi, hm, hv, rfl⟩ := buildRecipe_ok_parts h
  unfold buildRecipe
  have hmap : (([("image", i), ("mask", m), ("variance", v)] : RecipeCfg).map Prod.fst)
      = ["image", "mask", "variance"] := rfl
  have hcu : checkUnrecognized
      (([("image", i), ("mask", m), ("variance", v)] : RecipeCfg).map Prod.fst)
      planeNames name = .ok () := by
    apply (checkUnrecognized_ok_iff _ _ _).mpr
    rw [hmap]
    decide
  have hd1 : dlookup "image"
      ([("image", i), ("mask", m), ("variance", v)] : RecipeCfg) = some i := by
    simp [dlookup]
  have hd2 : dlookup "mask"
      ([("image", i), ("mask", m), ("variance", v)] : RecipeCfg) = some m := by
    simp [dlookup]
  have hd3 : dlookup "variance"
      ([("image", i), ("mask", m), ("variance", v)] : RecipeCfg) = some v := by
    simp [dlookup]
  have h1 := buildPlane_self hi hd1
  have h2 := buildPlane_self hm hd2
  have h3 := buildPlane_self hv hd3
  simp only [hcu, h1, h2, h3]

theorem buildRecipe_planes {name : String} {raw out : RecipeCfg}
    (h : buildRecipe name raw = .ok out) :
    ∀ pl ∈ planeNames, (dlookup pl raw).isSome := by
  obtain ⟨i, m, v, hu, hi, hm, hv, rfl⟩ := buildRecipe_ok_parts h
  have hlk : ∀ {p : String} {o : PlaneCfg},
      buildPlane name raw p = .ok o → (dlookup p raw).isSome := by
    intro p o hp
    obtain ⟨rawPlane, c, s, hdl, _⟩ := buildPlane_ok_parts hp
    simp [hdl]
  intro pl hpl
  simp only [planeNames, List.mem_cons, List.mem_singleton] at hpl
  rcases hpl with rfl | rfl | hpl
  · exact hlk hi
  · exact hlk hm
  · rcases hpl with rfl | hpl
    · exact hlk hv
    · cases hpl

theorem validateList_ok_chk : ∀ {R V : RecipesCfg},
    validateList R = .ok V → recipesChk R V = true := by
  intro R
  induction R with
  | nil =>
    intro V h
    injection h with h
    subst h
    simp [recipesChk]
  | cons nr rest ih =>
    intro V h
    obtain ⟨name, r⟩ := nr
    unfold validateList at h
    split at h
    · exact Except.noConfusion h
    · rename_i vr hvr
      split at h
      · exact Except.noConfusion h
      · rename_i vrest hrest
        injection h with h
        subst h
        have hr := recipeChk_of_buildRecipe hvr
        have htail := ih hrest
        unfold recipesChk at htail ⊢
        simp only [Bool.and_eq_true, List.all_eq_true, decide_eq_true_eq] at htail ⊢
        refine ⟨by simp [htail.1], ?_⟩
        intro p hp
        rw [List.zip_cons_cons] at hp
        rcases List.mem_cons.mp hp with rfl | hmem
        · exact ⟨rfl, hr⟩
        · exact htail.2 p hmem

theorem validateList_self : ∀ {R V : RecipesCfg},
    validateList R = .ok V → validateList V = .ok V := by
  intro R
  induction R with
  | nil =>
    intro V h
    injection h with h
    subst h
    rfl
  | cons nr rest ih =>
    intro V h
    obtain ⟨name, r⟩ := nr
    unfold validateList at h
    split at h
    · exact Except.noConfusion h
    · rename_i vr hvr
      split at h
      · exact Except.noConfusion h
      · rename_i vrest hrest
        injection h with h
        subst h
        have h1 := buildRecipe_self hvr
        have h2 := ih hrest
        simp [validateList, h1, h2]

theorem validateList_append (xs ys : RecipesCfg) :
    validateList (xs ++ ys) =
      match validateList xs with
      | .error e => .error e
      | .ok vxs =>
        match validateList ys with
        | .error e => .error e
        | .ok vys => .ok (vxs ++ vys) := by
  induction xs with
  | nil => cases hys : validateList ys <;> simp [validateList, hys]
  | cons nr rest ih =>
    obtain ⟨name, r⟩ := nr
    simp only [List.cons_append, validateList]
    cases hbr : buildRecipe name r with
    | error e => rfl
    | ok vr =>
      simp only [List.append_eq]
      rw [ih]
      cases hrest : validateList rest with
      | error e => rfl
      | ok vrest =>
        cases hys : validateList ys with
        | error e => rfl
        | ok vys => simp

theorem validateList_planes : ∀ {R V : RecipesCfg}, validateList R = .ok V →
    ∀ p ∈ R, ∀ pl ∈ planeNames, (dlookup pl p.2).isSome := by
  intro R
  induction R with
  | nil => intro V h p hp; cases hp
  | cons nr rest ih =>
    intro V h p hp
    obtain ⟨name, r⟩ := nr
    unfold validateList at h
    split at h
    · exact Except.noConfusion h
    · rename_i vr hvr
      split at h
      · exact Except.noConfusion h
      · rename_i vrest hrest
        rcases List.mem_cons.mp hp with rfl | hmem
        · exact buildRecipe_planes hvr
        · exact ih hrest p hmem

/-! ## Lemmas about `getImageCompressionSettings` -/

theorem dictMapVal_cons {β : Type} (k' : String) (v : β) (rest : Dict β)
    (k : String) (f : β → β) :
    dictMapVal ((k', v) :: rest) k f =
      (k', if k' = k then f v else v) :: dictMapVal rest k f := by
  unfold dictMapVal
  simp only [List.map_cons]
  by_cases h : k' = k <;> simp [h]

theorem dlookup_dictMapVal_self {β : Type} (d : Dict β) (k : String) (f : β → β) :
    dlookup k (dictMapVal d k f) = (dlookup k d).map f := by
  induction d with
  | nil => rfl
  | cons kv rest ih =>
    obtain ⟨k', v⟩ := kv
    rw [dictMapVal_cons]
    by_cases h : k' = k
    · simp [dlookup, h]
    · simp [dlookup, h, ih]

theorem dlookup_dictMapVal_ne {β : Type} (d : Dict β) {k q : String} (f : β → β)
    (h : q ≠ k) : dlookup q (dictMapVal d k f) = dlookup q d := by
  induction d with
  | nil => rfl
  | cons kv rest ih =>
    obtain ⟨k', v⟩ := kv
    rw [dictMapVal_cons]
    by_cases hq : k' = q
    · have hk : ¬ (k' = k) := by rw [hq]; exact fun he => h he
      simp [dlookup, hq, hk]
      intro he
      exact absurd he h
    · simp [dlookup, hq, ih]

theorem dlookup_seedStep_ne (seed : Int) (rec : RecipeCfg) {p q : String}
    (hpq : q ≠ p) : dlookup q (seedStep seed rec p) = dlookup q rec := by
  unfold seedStep
  split
  · rfl
  · split
    · rfl
    · split
      · rfl
      · split
        · exact dlookup_dictMapVal_ne rec _ hpq
        · rfl

theorem imageScalingSeed_congr {r1 r2 : RecipeCfg}
    (h : dlookup "image" r1 = dlookup "image" r2) :
    imageScalingSeed r1 = imageScalingSeed r2 := by
  unfold imageScalingSeed
  rw [h]

theorem imageScalingSeed_seedStep_image {seed : Int} {rec : RecipeCfg} {v0 : PyValue}
    (h : imageScalingSeed rec = some v0) (hz : pyEqZero v0 = true) :
    imageScalingSeed (seedStep seed rec "image") = some (.int seed) := by
  unfold imageScalingSeed at h
  cases hpl : dlookup "image" rec with
  | none => simp [hpl] at h
  | some pl =>
    simp only [hpl] at h
    cases hsc : dlookup "scaling" pl with
    | none => simp [hsc] at h
    | some sc =>
      simp only [hsc] at h
      unfold seedStep
      simp only [hpl, hsc, h, hz, if_true]
      unfold imageScalingSeed
      rw [dlookup_dictMapVal_self, hpl]
      simp only [Option.map_some']
      rw [dlookup_dictMapVal_self, hsc]
      simp only [Option.map_some']
      rw [dlookup_dictMapVal_self, h]
      rfl

theorem imageScalingSeed_applySeed {seed : Int} {rec : RecipeCfg} {v0 : PyValue}
    (h : imageScalingSeed rec = some v0) (hz : pyEqZero v0 = true) :
    imageScalingSeed (applySeed seed rec) = some (.int seed) := by
  have h1 : imageScalingSeed (seedStep seed rec "image") = some (.int seed) :=
    imageScalingSeed_seedStep_image h hz
  have h2 : imageScalingSeed (seedStep seed (seedStep seed rec "image") "mask") =
      some (.int seed) :=
    (imageScalingSeed_congr (dlookup_seedStep_ne _ _ (by decide))).trans h1
  have h3 : imageScalingSeed (seedStep seed
      (seedStep seed (seedStep seed rec "image") "mask") "variance") =
      some (.int seed) :=
    (imageScalingSeed_congr (dlookup_seedStep_ne _ _ (by decide))).trans h2
  unfold applySeed planeNames
  simpa [List.foldl] using h3

theorem derivedSeed_nonneg (pyHash : Fields → Int) (dataId : Fields) :
    0 ≤ derivedSeed pyHash dataId :=
  Int.emod_nonneg _ (by decide)

theorem derivedSeed_lt (pyHash : Fields → Int) (dataId : Fields) :
    derivedSeed pyHash dataId < 2 ^ 31 :=
  Int.emod_lt_of_pos _ (by decide)

/-! ## Lemmas about `read_all` -/

theorem mem_addSet_self (l : List String) (s : String) : s ∈ addSet l s := by
  unfold addSet
  split
  · assumption
  · simp

theorem mem_addSet_mono {l : List String} {t : String} (s : String) (h : t ∈ l) :
    t ∈ addSet l s := by
  unfold addSet
  split
  · exact h
  · simp [h]

theorem readLoop_append_ok {α : Type}
    (ro : String → Int → Except PyError (List (Int × α) × String))
    (camera : Camera) (ys : List String) : ∀ (xs : List String) data types last st,
    readLoop ro camera xs data types last = .ok st →
    readLoop ro camera (xs ++ ys) data types last =
      readLoop ro camera ys st.1 st.2.1 st.2.2 := by
  intro xs
  induction xs with
  | nil =>
    intro data types last st h
    injection h with h
    subst h
    rfl
  | cons d rest ih =>
    intro data types last st h
    unfold readLoop at h
    cases hdl : dlookup d (nameMap camera) with
    | none =>
      rw [hdl] at h
      exact Except.noConfusion h
    | some canonical =>
      rw [hdl] at h
      try dsimp only at h
      cases hro : ro d (chipId camera canonical) with
      | error e =>
        rw [hro] at h
        exact Except.noConfusion h
      | ok pr =>
        obtain ⟨dd, ctype⟩ := pr
        rw [hro] at h
        try dsimp only at h
        by_cases hc : (addSet types ctype).length ≠ 1
        · rw [if_pos hc] at h
          exact Except.noConfusion h
        · rw [if_neg hc] at h
          show readLoop ro camera (d :: (rest ++ ys)) data types last = _
          simp only [readLoop, hdl, hro]
          rw [if_neg hc]
          exact ih _ _ _ _ h

theorem readLoop_ok_inv {α : Type}
    (ro : String → Int → Except PyError (List (Int × α) × String))
    (camera : Camera) : ∀ (dirs : List String) data types last data' types' last',
    readLoop ro camera dirs data types last = .ok (data', types', last') →
    (∀ d ∈ dirs, ∃ c dd ct, dlookup d (nameMap camera) = some c ∧
        ro d (chipId camera c) = .ok (dd, ct) ∧ ct ∈ types') ∧
    (∀ t ∈ types, t ∈ types') ∧
    (types.length ≤ 1 → types'.length ≤ 1) ∧
    (dirs = [] → data' = data ∧ types' = types ∧ last' = last) ∧
    (dirs ≠ [] → ∃ ct, last' = some ct ∧ ct ∈ types') := by
  intro dirs
  induction dirs with
  | nil =>
    intro data types last data' types' last' h
    injection h with h
    injection h with h1 h
    injection h with h2 h3
    subst h1; subst h2; subst h3
    refine ⟨fun d hd => absurd hd (by simp), fun t ht => ht, fun h1 => h1,
      fun _ => ⟨rfl, rfl, rfl⟩, fun habs => absurd rfl habs⟩
  | cons d rest ih =>
    intro data types last data' types' last' h
    unfold readLoop at h
    cases hdl : dlookup d (nameMap camera) with
    | none =>
      rw [hdl] at h
      exact Except.noConfusion h
    | some canonical =>
      rw [hdl] at h
      try dsimp only at h
      cases hro : ro d (chipId camera canonical) with
      | error e =>
        rw [hro] at h
        exact Except.noConfusion h
      | ok pr =>
        obtain ⟨dd, ctype⟩ := pr
        rw [hro] at h
        try dsimp only at h
        by_cases hlen : (addSet types ctype).length ≠ 1
        · rw [if_pos hlen] at h
          exact Except.noConfusion h
        · rw [if_neg hlen] at h
          obtain ⟨ih1, ih2, ih3, ih4, ih5⟩ := ih _ _ _ _ _ _ h
          have hctype : ctype ∈ types' := ih2 _ (mem_addSet_self types ctype)
          have hlen1 : (addSet types ctype).length = 1 := not_not.mp hlen
          refine ⟨?_, ?_, ?_, ?_, ?_⟩
          · intro d2 hd2
            rcases List.mem_cons.mp hd2 with rfl | hmem
            · exact ⟨canonical, dd, ctype, hdl, hro, hctype⟩
            · exact ih1 d2 hmem
          · intro t ht
            exact ih2 t (mem_addSet_mono ctype ht)
          · intro _
            exact ih3 (by rw [hlen1])
          · intro habs
            cases habs
          · intro _
            cases hrest : rest with
            | nil =>
              obtain ⟨_, _, hlast⟩ := ih4 hrest
              exact ⟨ctype, by rw [hlast], hctype⟩
            | cons x xs =>
              exact ih5 (by rw [hrest]; exact List.cons_ne_nil x xs)

/-! ## Claim theorems -/

/-- C9: `validateRecipes` applied to `None` and to the empty mapping is an
identity operation: each returns its input unchanged, with no error. -/
theorem validateWriteRecipes_identity_on_empty :
    validateWriteRecipes none = .ok none ∧
    validateWriteRecipes (some ([] : RecipesCfg)) = .ok (some []) :=
  ⟨rfl, rfl⟩

/-- C2 (code bug evidence): for a component name outside the fixed component
table, `readComponent` raises `TypeError` from unpacking `None` — not the
documented `KeyError` — and the error message does not name the offending
component.  The `raise KeyError` branch of the source is unreachable. -/
theorem readComponent_unknown_component_bug :
    readComponent none none "undefined_component" =
      .error (.typeError "cannot unpack non-iterable NoneType object") ∧
    (∀ s, readComponent none none "undefined_component" ≠
      .error (.keyError s)) ∧
    containsSub "cannot unpack non-iterable NoneType object"
      "undefined_component" = false ∧
    dlookup "undefined_component" componentMap = none := by
  refine ⟨rfl, ?_, by decide, rfl⟩
  intro s h
  rw [show readComponent none none "undefined_component" =
      Except.error (PyError.typeError "cannot unpack non-iterable NoneType object")
    from rfl] at h
  exact PyError.noConfusion (Except.error.inj h)

/-- C1 (amended): resolving a recipe whose scaling seed is the sentinel 0
substitutes, in each resolution, `hash(dataId) % 2**31` — a pure,
deterministic function of that resolution's dataset identity, lying in
`[0, 2**31)`.  The value is not guaranteed to be nonzero: it is 0 exactly
when the identity's hash is divisible by `2**31` (see the counterexample). -/
theorem getImageCompressionSettings_seed_derivation
    (pyHash : Fields → Int) (d1 d2 : Fields) (recipes : RecipesCfg)
    (recipe : RecipeCfg) (hdef : dlookup "default" recipes = some recipe)
    (hseed : imageScalingSeed recipe = some (.int 0)) :
    ∃ r1 r2, getImageCompressionSettings pyHash d1 recipes none = .ok r1 ∧
      getImageCompressionSettings pyHash d2 recipes none = .ok r2 ∧
      imageScalingSeed r1 = some (.int (derivedSeed pyHash d1)) ∧
      imageScalingSeed r2 = some (.int (derivedSeed pyHash d2)) ∧
      0 ≤ derivedSeed pyHash d1 ∧ derivedSeed pyHash d1 < 2 ^ 31 ∧
      (d1 = d2 → derivedSeed pyHash d1 = derivedSeed pyHash d2) := by
  have hz : pyEqZero (.int 0) = true := rfl
  have hr : ∀ dId, getImageCompressionSettings pyHash dId recipes none =
      .ok (applySeed (derivedSeed pyHash dId) recipe) := by
    intro dId
    unfold getImageCompressionSettings
    rw [if_pos (Or.inl rfl), hdef]
  exact ⟨_, _, hr d1, hr d2,
    imageScalingSeed_applySeed hseed hz, imageScalingSeed_applySeed hseed hz,
    derivedSeed_nonneg _ _, derivedSeed_lt _ _, fun h => by rw [h]⟩

/-- C1 witness: the derivation theorem applied at a concrete hash model,
two concrete dataset identities and the spec's recipe
`{"default": {"image": {"scaling": {"seed": 0}}}}`. -/
theorem getImageCompressionSettings_seed_derivation_witness :
    dlookup "default" recipesSeed =
      some [("image", [("scaling", [("seed", PyValue.int 0)])])] ∧
    imageScalingSeed [("image", [("scaling", [("seed", PyValue.int 0)])])] =
      some (.int 0) ∧
    ∃ r1 r2,
      getImageCompressionSettings hashLen [("visit", PyValue.int 1)]
        recipesSeed none = .ok r1 ∧
      getImageCompressionSettings hashLen
        [("visit", PyValue.int 1), ("detector", PyValue.int 2)]
        recipesSeed none = .ok r2 ∧
      imageScalingSeed r1 =
        some (.int (derivedSeed hashLen [("visit", PyValue.int 1)])) ∧
      imageScalingSeed r2 =
        some (.int (derivedSeed hashLen
          [("visit", PyValue.int 1), ("detector", PyValue.int 2)])) ∧
      0 ≤ derivedSeed hashLen [("visit", PyValue.int 1)] ∧
      derivedSeed hashLen [("visit", PyValue.int 1)] < 2 ^ 31 ∧
      ([("visit", PyValue.int 1)] =
          [("visit", PyValue.int 1), ("detector", PyValue.int 2)] →
        derivedSeed hashLen [("visit", PyValue.int 1)] =
          derivedSeed hashLen
            [("visit", PyValue.int 1), ("detector", PyValue.int 2)]) :=
  ⟨rfl, rfl,
    getImageCompressionSettings_seed_derivation hashLen
      [("visit", PyValue.int 1)]
      [("visit", PyValue.int 1), ("detector", PyValue.int 2)]
      recipesSeed [("image", [("scaling", [("seed", PyValue.int 0)])])]
      rfl rfl⟩

/-- C1 counterexample: the claim "the substituted seed is never literal 0" is
false on the code.  Under a hash assignment reducing to 0 modulo `2**31`
(admissible for Python's randomized `hash`), resolving the sentinel recipe
substitutes literal 0 as the seed. -/
theorem getImageCompressionSettings_seed_zero_counterexample :
    getImageCompressionSettings hashZero [("visit", PyValue.int 1)]
      recipesSeed none =
      .ok [("image", [("scaling", [("seed", PyValue.int 0)])])] ∧
    derivedSeed hashZero [("visit", PyValue.int 1)] = 0 ∧
    imageScalingSeed [("image", [("scaling", [("seed", PyValue.int 0)])])] =
      some (PyValue.int 0) := by
  refine ⟨?_, rfl, rfl⟩
  rfl

/-- C3: every recipe mapping accepted by `validateWriteRecipes` is returned
fully normalized — every recipe carries exactly the three planes, each plane
both sub-sections, each sub-section exactly the schema's fields, with absent
sub-sections filled from the defaults and present values coerced to the
schema field's type (`recipesChk`); and an unrecognized key set at any
nesting level is fatal via `checkUnrecognized`, whose `RuntimeError` message
names the location and every offending key. -/
theorem validateWriteRecipes_normalizes :
    (∀ R V, validateWriteRecipes (some R) = .ok (some V) →
      recipesChk R V = true) ∧
    (∀ (keys allowed : List String) (desc : String),
      unrecognizedOf keys allowed ≠ [] →
      ∃ msg, checkUnrecognized keys allowed desc = .error (.runtimeError msg) ∧
        strContainsP msg desc ∧
        ∀ k ∈ unrecognizedOf keys allowed, strContainsP msg k) := by
  constructor
  · intro R V h
    cases R with
    | nil =>
      have h' : Except.ok (ε := PyError) (some ([] : RecipesCfg)) = .ok (some V) := h
      injection h' with h'
      injection h' with h'
      subst h'
      rfl
    | cons r rs =>
      have h' : (match validateList (r :: rs) with
          | .error e => Except.error e
          | .ok v => Except.ok (some v)) = .ok (some V) := h
      cases hvl : validateList (r :: rs) with
      | error e =>
        rw [hvl] at h'
        exact Except.noConfusion h'
      | ok v =>
        rw [hvl] at h'
        injection h' with h'
        injection h' with h'
        subst h'
        exact validateList_ok_chk hvl
  · intro keys allowed desc hu
    refine ⟨unrecognizedMsg desc (unrecognizedOf keys allowed),
      checkUnrecognized_err desc hu, ?_, ?_⟩
    · exact strContainsP_here _ _ _
    · intro k hk
      unfold unrecognizedMsg
      apply strContainsP_cons
      apply strContainsP_cons
      apply strContainsP_cons
      apply strContainsP_cons
      exact strContainsP_extend_right _ (joinWith_contains _ hk)

/-- C3 witness: the normalization theorem applied to a concrete one-recipe
mapping whose planes are present and empty (all fields filled from
defaults). -/
theorem validateWriteRecipes_normalizes_witness :
    validateWriteRecipes (some recipesW) = .ok (some recipesWout) ∧
    recipesChk recipesW recipesWout = true :=
  ⟨by rfl, validateWriteRecipes_normalizes.1 recipesW recipesWout (by rfl)⟩

/-- C4: `validateRecipes` is idempotent — re-validating an accepted,
normalized output succeeds and returns the identical structure. -/
theorem validateWriteRecipes_idempotent (R V : Option RecipesCfg)
    (h : validateWriteRecipes R = .ok V) : validateWriteRecipes V = .ok V := by
  cases R with
  | none =>
    have h' : Except.ok (ε := PyError) (none : Option RecipesCfg) = .ok V := h
    injection h' with h'
    subst h'
    rfl
  | some rs =>
    cases rs with
    | nil =>
      have h' : Except.ok (ε := PyError) (some ([] : RecipesCfg)) = .ok V := h
      injection h' with h'
      subst h'
      rfl
    | cons r rest =>
      have h' : (match validateList (r :: rest) with
          | .error e => Except.error e
          | .ok v => Except.ok (some v)) = .ok V := h
      cases hvl : validateList (r :: rest) with
      | error e =>
        rw [hvl] at h'
        exact Except.noConfusion h'
      | ok v =>
        rw [hvl] at h'
        injection h' with h'
        subst h'
        have hs := validateList_self hvl
        cases v with
        | nil => rfl
        | cons x xs =>
          show (match validateList (x :: xs) with
            | .error e => Except.error e
            | .ok w => Except.ok (some w)) = .ok (some (x :: xs))
          rw [hs]
  
/-- C4 witness: idempotence applied at a concrete accepted mapping. -/
theorem validateWriteRecipes_idempotent_witness :
    validateWriteRecipes (some recipesW) = .ok (some recipesWout) ∧
    validateWriteRecipes (some recipesWout) = .ok (some recipesWout) :=
  ⟨by rfl, validateWriteRecipes_idempotent (some recipesW) (some recipesWout) (by rfl)⟩

/-- C10: a recipe mapping containing a recipe that omits one of the three
planes is never accepted; when validation reaches the recipe whose only
defect is the missing plane (all earlier planes build successfully), it
fails with an uncaught `KeyError` naming that plane — not the documented
`RuntimeError`, and the missing plane is not filled with defaults. -/
theorem validateWriteRecipes_missing_plane_keyError :
    (∀ R V, validateWriteRecipes (some R) = .ok (some V) →
      ∀ p ∈ R, ∀ pl ∈ planeNames, (dlookup pl p.2).isSome) ∧
    (∀ (pre post : RecipesCfg) (name : String) (raw : RecipeCfg)
        (pl : String) (vpre : RecipesCfg),
      unrecognizedOf (raw.map Prod.fst) planeNames = [] →
      planeNames.find? (fun p => (dlookup p raw).isNone) = some pl →
      (∀ p ∈ planeNames.takeWhile (fun p => (dlookup p raw).isSome),
        ∃ o, buildPlane name raw p = .ok o) →
      validateList pre = .ok vpre →
      validateWriteRecipes (some (pre ++ (name, raw) :: post)) =
        .error (.keyError pl)) := by
  constructor
  · intro R V h p hp pl hpl
    cases R with
    | nil => cases hp
    | cons r rs =>
      have h' : (match validateList (r :: rs) with
          | .error e => Except.error e
          | .ok v => Except.ok (some v)) = .ok (some V) := h
      cases hvl : validateList (r :: rs) with
      | error e =>
        rw [hvl] at h'
        exact Except.noConfusion h'
      | ok v => exact validateList_planes hvl p hp pl hpl
  · intro pre post name raw pl vpre hu hfind htake hpre
    have hbr : buildRecipe name raw = .error (.keyError pl) := by
      unfold buildRecipe
      have hcu : checkUnrecognized (raw.map Prod.fst) planeNames name = .ok () :=
        (checkUnrecognized_ok_iff _ _ _).mpr hu
      rw [hcu]
      by_cases h1 : (dlookup "image" raw).isNone
      · have hpl1 : pl = "image" := by
          simp [planeNames, List.find?, h1] at hfind
          exact hfind.symm
        subst hpl1
        have hnone : dlookup "image" raw = none := Option.isNone_iff_eq_none.mp h1
        have him : buildPlane name raw "image" = .error (.keyError "image") := by
          unfold buildPlane
          rw [hnone]
        rw [him]
      · have h1' : (dlookup "image" raw).isSome = true := by
          cases hx : dlookup "image" raw with
          | none => rw [hx] at h1; exact absurd rfl h1
          | some _ => rfl
        obtain ⟨oi, hoi⟩ := htake "image"
          (by simp [planeNames, List.takeWhile, h1'])
        by_cases h2 : (dlookup "mask" raw).isNone
        · have hpl2 : pl = "mask" := by
            simp [planeNames, List.find?, Bool.not_eq_true, h1, h2] at hfind
            exact hfind.symm
          subst hpl2
          have hnone : dlookup "mask" raw = none := Option.isNone_iff_eq_none.mp h2
          have hmk : buildPlane name raw "mask" = .error (.keyError "mask") := by
            unfold buildPlane
            rw [hnone]
          rw [hoi, hmk]
        · have h2' : (dlookup "mask" raw).isSome = true := by
            cases hx : dlookup "mask" raw with
            | none => rw [hx] at h2; exact absurd rfl h2
            | some _ => rfl
          obtain ⟨om, hom⟩ := htake "mask"
            (by simp [planeNames, List.takeWhile, h1', h2'])
          by_cases h3 : (dlookup "variance" raw).isNone
          · have hpl3 : pl = "variance" := by
              simp [planeNames, List.find?, Bool.not_eq_true, h1, h2, h3] at hfind
              exact hfind.symm
            subst hpl3
            have hnone : dlookup "variance" raw = none :=
              Option.isNone_iff_eq_none.mp h3
            have hvr : buildPlane name raw "variance" =
                .error (.keyError "variance") := by
              unfold buildPlane
              rw [hnone]
            rw [hoi, hom, hvr]
          · simp [planeNames, List.find?, Bool.not_eq_true, h1, h2, h3] at hfind
    have hvl : validateList (pre ++ (name, raw) :: post) =
        .error (.keyError pl) := by
      rw [validateList_append, hpre]
      have hcons : validateList ((name, raw) :: post) = .error (.keyError pl) := by
        unfold validateList
        rw [hbr]
      rw [hcons]
    obtain ⟨y, ys2, heq⟩ : ∃ y ys2, pre ++ (name, raw) :: post = y :: ys2 := by
      cases pre with
      | nil => exact ⟨_, _, rfl⟩
      | cons a as => exact ⟨_, _, rfl⟩
    rw [heq] at hvl ⊢
    show (match validateList (y :: ys2) with
      | .error e => Except.error e
      | .ok v => Except.ok (some v)) = .error (.keyError pl)
    rw [hvl]

/-- C10 witness: the missing-plane theorem applied to the concrete mapping
`{"default": {"image": {}}}`, whose validation raises `KeyError("mask")`. -/
theorem validateWriteRecipes_missing_plane_keyError_witness :
    unrecognizedOf (([("image", [])] : RecipeCfg).map Prod.fst) planeNames = [] ∧
    planeNames.find?
      (fun p => (dlookup p ([("image", [])] : RecipeCfg)).isNone) = some "mask" ∧
    validateWriteRecipes (some [("default", [("image", [])])]) =
      .error (.keyError "mask") :=
  ⟨by decide, by decide,
    validateWriteRecipes_missing_plane_keyError.2 [] [] "default"
      [("image", [])] "mask" [] (by decide) (by decide)
      (by
        intro p hp
        have hp1 : p = "image" := by
          simpa [planeNames, List.takeWhile, dlookup] using hp
        subst hp1
        exact ⟨defaultPlane, by rfl⟩)
      rfl⟩

theorem read_all_ok_parts {α : Type}
    (ro : String → Int → Except PyError (List (Int × α) × String))
    (camera : Camera) (root : String) {dirs : List String}
    {data : Dict (List (Int × α))} {cat : String}
    (h : read_all ro camera root dirs = .ok (data, cat)) :
    dirs ≠ [] ∧ ∃ types last,
      readLoop ro camera dirs [] [] none = .ok (data, types, last) ∧
      data.all (fun kv => kv.2.isEmpty) = false ∧ last.getD "" = cat := by
  by_cases hd : dirs = []
  · subst hd
    have h' : Except.error (α := Dict (List (Int × α)) × String)
        (PyError.runtimeError ("No data found on path " ++ root)) =
        .ok (data, cat) := h
    exact Except.noConfusion h'
  · unfold read_all at h
    rw [if_neg hd] at h
    cases hloop : readLoop ro camera dirs [] [] none with
    | error e =>
      rw [hloop] at h
      exact Except.noConfusion h
    | ok st =>
      obtain ⟨data1, types1, last1⟩ := st
      rw [hloop] at h
      try dsimp only at h
      by_cases hemp : data1.all (fun kv => kv.2.isEmpty) = true
      · rw [if_pos hemp] at h
        exact Except.noConfusion h
      · rw [if_neg hemp] at h
        injection h with h
        injection h with h1 h2
        subst h1
        exact ⟨hd, types1, last1, rfl, (Bool.not_eq_true _) ▸ hemp, h2⟩

/-- C5: `check_metadata` raises exactly when the lower-cased header triple
(instrument, int-coerced detector id, observation type) differs from the
lower-cased path triple; on mismatch the `ValueError` message contains both
raw triples and the file path, and on equality the object is accepted. -/
theorem check_metadata_iff (md : CalibHeader) (instrument : String)
    (chip_id : Int) (data_name filepath : String) (fchip : Int)
    (hc : pyIntCoerce md.DETECTOR = .ok fchip) :
    ((check_metadata md instrument chip_id data_name filepath = .ok ()) ↔
      (pyLower md.INSTRUME, fchip, pyLower md.OBSTYPE) =
        (pyLower instrument, chip_id, pyLower data_name)) ∧
    ((pyLower md.INSTRUME, fchip, pyLower md.OBSTYPE) ≠
        (pyLower instrument, chip_id, pyLower data_name) →
      ∃ msg, check_metadata md instrument chip_id data_name filepath =
          .error (.valueError msg) ∧
        strContainsP msg (pathTripleStr instrument chip_id data_name) ∧
        strContainsP msg (fileTripleStr md) ∧
        strContainsP msg filepath) := by
  unfold check_metadata
  rw [hc]
  try dsimp only
  constructor
  · by_cases he : (pyLower md.INSTRUME, fchip, pyLower md.OBSTYPE) =
        (pyLower instrument, chip_id, pyLower data_name)
    · simp [he]
    · simp [he]
  · intro hne
    rw [if_neg hne]
    refine ⟨_, rfl, ?_, ?_, ?_⟩
    · exact strContainsP_here _ _ _
    · apply strContainsP_cons
      apply strContainsP_cons
      apply strContainsP_cons
      exact strContainsP_self_left _ _
    · apply strContainsP_cons
      apply strContainsP_cons
      apply strContainsP_cons
      apply strContainsP_cons
      apply strContainsP_cons
      exact strContainsP_self_left _ _

/-- C5 witness: the consistency theorem applied at a concrete header whose
detector id 7 disagrees with the path-derived id 3. -/
theorem check_metadata_iff_witness :
    pyIntCoerce (CalibHeader.mk "cam" (PyValue.int 7) "defects").DETECTOR =
      .ok 7 ∧
    (((check_metadata ⟨"cam", PyValue.int 7, "defects"⟩ "cam" 3 "defects"
        "archive/defects/ccd01/f.yaml" = .ok ()) ↔
      ((pyLower "cam", (7 : Int), pyLower "defects") =
        (pyLower "cam", (3 : Int), pyLower "defects"))) ∧
    (((pyLower "cam", (7 : Int), pyLower "defects") ≠
        (pyLower "cam", (3 : Int), pyLower "defects")) →
      ∃ msg, check_metadata ⟨"cam", PyValue.int 7, "defects"⟩ "cam" 3 "defects"
          "archive/defects/ccd01/f.yaml" = .error (.valueError msg) ∧
        strContainsP msg (pathTripleStr "cam" 3 "defects") ∧
        strContainsP msg (fileTripleStr ⟨"cam", PyValue.int 7, "defects"⟩) ∧
        strContainsP msg "archive/defects/ccd01/f.yaml")) :=
  ⟨rfl, check_metadata_iff ⟨"cam", PyValue.int 7, "defects"⟩ "cam" 3 "defects"
    "archive/defects/ccd01/f.yaml" 7 rfl⟩

/-- C6: when the loop reaches a subdirectory whose name does not resolve in
the camera's lower-cased name table, `read_all` raises a `RuntimeError`
naming the subdirectory and the camera, listing at most 10 known sensor
names — with "examples" framing and a truncated list exactly when the camera
knows more than 10 sensors, "knows" framing with the full list otherwise. -/
theorem read_all_unknown_detector {α : Type}
    (ro : String → Int → Except PyError (List (Int × α) × String))
    (camera : Camera) (root : String) (pre : List String) (d : String)
    (post : List String)
    (st : Dict (List (Int × α)) × List String × Option String)
    (hpre : readLoop ro camera pre [] [] none = .ok st)
    (hunk : dlookup d (nameMap camera) = none) :
    read_all ro camera root (pre ++ d :: post) =
      .error (.runtimeError (unknownDetectorMsg d camera)) ∧
    strContainsP (unknownDetectorMsg d camera) d ∧
    strContainsP (unknownDetectorMsg d camera) camera.name ∧
    (∃ shown note,
      unknownDetectorMsg d camera =
        "Detector " ++ (d ++ (" not known to supplied camera " ++
          (camera.name ++ (" (" ++ (note ++ (": " ++
            (joinWith "," shown ++ ")"))))))) ∧
      shown.length ≤ 10 ∧
      ((camera.detectors.map Detector.name).length > 10 →
        note = "examples" ∧ shown = (camera.detectors.map Detector.name).take 10) ∧
      ((camera.detectors.map Detector.name).length ≤ 10 →
        note = "knows" ∧ shown = camera.detectors.map Detector.name)) := by
  have hchars : ∃ shown note,
      unknownDetectorMsg d camera =
        "Detector " ++ (d ++ (" not known to supplied camera " ++
          (camera.name ++ (" (" ++ (note ++ (": " ++
            (joinWith "," shown ++ ")"))))))) ∧
      shown.length ≤ 10 ∧
      ((camera.detectors.map Detector.name).length > 10 →
        note = "examples" ∧ shown = (camera.detectors.map Detector.name).take 10) ∧
      ((camera.detectors.map Detector.name).length ≤ 10 →
        note = "knows" ∧ shown = camera.detectors.map Detector.name) := by
    by_cases h10 : (camera.detectors.map Detector.name).length > 10
    · refine ⟨(camera.detectors.map Detector.name).take 10, "examples", ?_, ?_,
        fun _ => ⟨rfl, rfl⟩, fun hle => absurd h10 (by omega)⟩
      · simp only [unknownDetectorMsg]
        rw [if_pos h10, if_pos h10]
      · rw [List.length_take]
        exact min_le_left _ _
    · refine ⟨camera.detectors.map Detector.name, "knows", ?_, by omega,
        fun hgt => absurd hgt h10, fun _ => ⟨rfl, rfl⟩⟩
      simp only [unknownDetectorMsg]
      rw [if_neg h10, if_neg h10]
  obtain ⟨shown, note, heq, hlen10, hgt, hle⟩ := hchars
  refine ⟨?_, ?_, ?_, shown, note, heq, hlen10, hgt, hle⟩
  · have hdirs : pre ++ d :: post ≠ [] := by cases pre <;> simp
    unfold read_all
    rw [if_neg hdirs]
    have hloop : readLoop ro camera (pre ++ d :: post) [] [] none =
        .error (.runtimeError (unknownDetectorMsg d camera)) := by
      rw [readLoop_append_ok ro camera (d :: post) pre [] [] none st hpre]
      show readLoop ro camera (d :: post) st.1 st.2.1 st.2.2 = _
      unfold readLoop
      rw [hunk]
    rw [hloop]
  · rw [heq]
    exact strContainsP_here _ _ _
  · rw [heq]
    apply strContainsP_cons
    apply strContainsP_cons
    apply strContainsP_cons
    exact strContainsP_self_left _ _

/-- C6 witness: the unknown-detector theorem applied to a camera with two
sensors and the unknown directory name "amp99" as the first entry. -/
theorem read_all_unknown_detector_witness :
    readLoop roEmpty cam2 [] [] [] none =
      .ok (([], [], none) : Dict (List (Int × Nat)) × List String × Option String) ∧
    dlookup "amp99" (nameMap cam2) = none ∧
    read_all roEmpty cam2 "archive/defects" ([] ++ "amp99" :: []) =
      .error (.runtimeError (unknownDetectorMsg "amp99" cam2)) ∧
    strContainsP (unknownDetectorMsg "amp99" cam2) "amp99" ∧
    strContainsP (unknownDetectorMsg "amp99" cam2) cam2.name :=
  ⟨rfl, by decide,
    (read_all_unknown_detector roEmpty cam2 "archive/defects" [] "amp99" []
      ([], [], none) rfl (by decide)).1,
    (read_all_unknown_detector roEmpty cam2 "archive/defects" [] "amp99" []
      ([], [], none) rfl (by decide)).2.1,
    (read_all_unknown_detector roEmpty cam2 "archive/defects" [] "amp99" []
      ([], [], none) rfl (by decide)).2.2.1⟩

/-- C7: when a sensor subdirectory yields a calibration category different
from the one the preceding sensors yielded, `read_all` raises a `ValueError`
naming both conflicting categories; and whenever `read_all` returns, every
sensor's chip read yielded exactly the single returned category. -/
theorem read_all_mixed_categories {α : Type}
    (ro : String → Int → Except PyError (List (Int × α) × String))
    (camera : Camera) (root : String) :
    (∀ (pre : List String) (d : String) (post : List String) data0 t last0
        canonical dd t2,
      readLoop ro camera pre [] [] none = .ok (data0, [t], last0) →
      dlookup d (nameMap camera) = some canonical →
      ro d (chipId camera canonical) = .ok (dd, t2) → t2 ≠ t →
      ∃ msg, read_all ro camera root (pre ++ d :: post) =
          .error (.valueError msg) ∧
        strContainsP msg t ∧ strContainsP msg t2) ∧
    (∀ dirs data cat, read_all ro camera root dirs = .ok (data, cat) →
      ∀ d2 ∈ dirs, ∃ c2 dd2, dlookup d2 (nameMap camera) = some c2 ∧
        ro d2 (chipId camera c2) = .ok (dd2, cat)) := by
  constructor
  · intro pre d post data0 t last0 canonical dd t2 hpre hdl hro hne
    have hdirs : pre ++ d :: post ≠ [] := by cases pre <;> simp
    have haddset : addSet [t] t2 = [t, t2] := by
      unfold addSet
      rw [if_neg (by simp [hne])]
      rfl
    have hloop : readLoop ro camera (pre ++ d :: post) [] [] none =
        .error (.valueError (mixedTypesMsg [t, t2])) := by
      rw [readLoop_append_ok ro camera (d :: post) pre [] [] none
        (data0, [t], last0) hpre]
      show readLoop ro camera (d :: post) data0 [t] last0 = _
      unfold readLoop
      rw [hdl]
      try dsimp only
      rw [hro]
      try dsimp only
      rw [haddset]
      rw [if_pos (by simp)]
    refine ⟨mixedTypesMsg [t, t2], ?_, ?_, ?_⟩
    · unfold read_all
      rw [if_neg hdirs, hloop]
    · unfold mixedTypesMsg
      apply strContainsP_cons
      apply strContainsP_cons
      exact strContainsP_extend_right _ (joinWith_contains ", " (by simp))
    · unfold mixedTypesMsg
      apply strContainsP_cons
      apply strContainsP_cons
      exact strContainsP_extend_right _ (joinWith_contains ", " (by simp))
  · intro dirs data cat h
    obtain ⟨hd, types1, last1, hloop, hemp, hcat⟩ :=
      read_all_ok_parts ro camera root h
    obtain ⟨inv1, inv2, inv3, inv4, inv5⟩ :=
      readLoop_ok_inv ro camera dirs [] [] none data types1 last1 hloop
    obtain ⟨ct, hlast, hctmem⟩ := inv5 hd
    have hlen : types1.length ≤ 1 := inv3 (by simp)
    have htypes : types1 = [ct] := by
      cases types1 with
      | nil => cases hctmem
      | cons a rest =>
        cases rest with
        | nil =>
          have hcta : ct = a := by simpa using hctmem
          rw [hcta]
        | cons b r2 => simp at hlen
    have hcat2 : cat = ct := by
      rw [← hcat, hlast]
      rfl
    intro d2 hd2
    obtain ⟨c2, dd2, ct2, hdl2, hro2, hct2⟩ := inv1 d2 hd2
    have hct2' : ct2 = ct := by
      rw [htypes] at hct2
      simpa using hct2
    refine ⟨c2, dd2, hdl2, ?_⟩
    rw [hro2, hct2', hcat2]

/-- C7 witness: the mixed-category theorem applied to a two-sensor camera
whose chip reads yield categories defects and linearizer. -/
theorem read_all_mixed_categories_witness :
    readLoop roMixed cam2 ["ccd00"] [] [] none =
      .ok ([("ccd00", ([] : List (Int × Nat)))], ["defects"], some "defects") ∧
    dlookup "ccd01" (nameMap cam2) = some "ccd01" ∧
    roMixed "ccd01" (chipId cam2 "ccd01") = .ok ([], "linearizer") ∧
    ∃ msg, read_all roMixed cam2 "archive" (["ccd00"] ++ "ccd01" :: []) =
        .error (.valueError msg) ∧
      strContainsP msg "defects" ∧ strContainsP msg "linearizer" :=
  ⟨by decide, by decide, by decide,
    (read_all_mixed_categories roMixed cam2 "archive").1 ["ccd00"] "ccd01" []
      [("ccd00", [])] "defects" (some "defects") "ccd01" [] "linearizer"
      (by decide) (by decide) (by decide) (by decide)⟩

/-- C8: `read_all` raises the distinct fatal error "No data found on path
..." for a root with zero immediate subdirectories and "No data to ingest"
when every sensor yields an empty per-timestamp mapping; the two messages
are never equal, and whenever `read_all` returns normally, at least one
sensor has at least one record. -/
theorem read_all_emptiness {α : Type}
    (ro : String → Int → Except PyError (List (Int × α) × String))
    (camera : Camera) (root : String) :
    (read_all ro camera root [] =
      .error (.runtimeError ("No data found on path " ++ root))) ∧
    (∀ dirs data types last, dirs ≠ [] →
      readLoop ro camera dirs [] [] none = .ok (data, types, last) →
      data.all (fun kv => kv.2.isEmpty) = true →
      read_all ro camera root dirs = .error (.runtimeError "No data to ingest")) ∧
    (∀ r2 : String, "No data found on path " ++ r2 ≠ "No data to ingest") ∧
    (∀ dirs data cat, read_all ro camera root dirs = .ok (data, cat) →
      ∃ kv ∈ data, kv.2 ≠ []) := by
  refine ⟨rfl, ?_, ?_, ?_⟩
  · intro dirs data types last hne hloop hempty
    unfold read_all
    rw [if_neg hne, hloop]
    try dsimp only
    rw [if_pos hempty]
  · intro r2 hcontra
    have hlen := congrArg String.length hcontra
    rw [String.length_append] at hlen
    have h22 : ("No data found on path " : String).length = 22 := rfl
    have h17 : ("No data to ingest" : String).length = 17 := rfl
    rw [h22, h17] at hlen
    omega
  · intro dirs data cat h
    obtain ⟨hd, types1, last1, hloop, hemp, hcat⟩ :=
      read_all_ok_parts ro camera root h
    by_contra hcon
    push_neg at hcon
    have hall : data.all (fun kv => kv.2.isEmpty) = true := by
      rw [List.all_eq_true]
      intro kv hkv
      rw [hcon kv hkv]
      rfl
    rw [hall] at hemp
    exact Bool.noConfusion hemp

/-- C8 witness: the emptiness theorem applied to a one-sensor camera whose
single chip read yields no records ("No data to ingest"), plus the
zero-subdirectory error at a concrete root. -/
theorem read_all_emptiness_witness :
    read_all roEmpty cam1 "archive/defects" [] =
      .error (.runtimeError ("No data found on path " ++ "archive/defects")) ∧
    (["ccd00"] : List String) ≠ [] ∧
    readLoop roEmpty cam1 ["ccd00"] [] [] none =
      .ok ([("ccd00", ([] : List (Int × Nat)))], ["defects"], some "defects") ∧
    read_all roEmpty cam1 "archive/defects" ["ccd00"] =
      .error (.runtimeError "No data to ingest") :=
  ⟨(read_all_emptiness roEmpty cam1 "archive/defects").1, by decide, by decide,
    (read_all_emptiness roEmpty cam1 "archive/defects").2.1 ["ccd00"]
      [("ccd00", [])] ["defects"] (some "defects") (by decide) (by decide) rfl⟩
